import Mathlib

/-!
Shallow embedding of `src/parser.py` (hubo1016/parser): the combinator core
(`Token`, `Sequence`, `Switch`) with its `parse` / `fullparse` protocol,
translated line by line from the Python source.

Conventions of the embedding:
* a Python source buffer is a `List Char`, positions are `Nat` offsets;
* Python exceptions become `Except PyExc`; the two `ParserException`
  subclasses are the `PyExc.parser` kinds (`notMatch` for
  `ParserNotMatchException`, `fatal` for `ParserFatalException`), carrying
  the position they were constructed with (messages and the source-buffer
  reference are ancillary and not modelled);
* Python runtime errors that the source can actually raise are modelled
  explicitly: `nameError` (unbound identifier), `typeError` (iterating a
  non-iterable), `attributeError` (missing attribute), `indexError`, plus
  `valueError` standing for an arbitrary non-parser exception raised by a
  user mapper;
* mapper callbacks are modelled by small closed inductives (`TMapper`,
  `SMapper`, `WMapper`) covering the mappers the repository uses (the
  defaults, the `placeholder` mapper, text extraction) plus test mappers
  (tagged constants, raising mappers) so that mapper failure paths are
  expressible;
* the `Switch.parse` exhaustion branches (source lines 201/217/218) contain
  a malformed message expression (a string literal juxtaposed with a
  `repr(...)` call, flagged in the repository notes as a latent
  message-formatting defect); the embedding keeps the written exception
  class and position and does not model the message text;
* regular expressions are embedded as a small AST (`Regex`) with a
  backtracking leftmost/greedy matcher (`Regex.matchEnds`) matching the
  semantics of Python `re` for group-free patterns; `re.Pattern.match(s,
  pos, endpos)` anchored at `pos` and bounded by `endpos` is
  `Regex.matchAt`.
-/

/-- The two `ParserException` subclasses of the source, by position. -/
inductive PErr where
  | notMatch (pos : Nat)
  | fatal (pos : Nat)
deriving DecidableEq, Repr

/-- A Python exception: a parser failure or a plain runtime error. -/
inductive PyExc where
  | parser (e : PErr)
  | nameError (n : String)
  | typeError (msg : String)
  | attributeError (msg : String)
  | indexError (msg : String)
  | valueError (msg : String)
deriving DecidableEq, Repr

/-- Group-free regular expressions, sufficient for the patterns the
repository builds (`[ \t]*`, single characters, escaped literals,
alternation, repetition). -/
inductive Regex where
  | eps
  | char (c : Char)
  | cls (cs : List Char)
  | seq (r1 r2 : Regex)
  | alt (r1 r2 : Regex)
  | star (r : Regex)
deriving DecidableEq, Repr

/-- Greedy iteration for `star`: all end positions reachable by repeating
`next`, longest-first (the order a backtracking engine prefers), with a
fuel bound; only strictly advancing iterations are taken, so a nested
empty match terminates the loop, as in Python `re`. -/
def iterStar (next : Nat → List Nat) : Nat → Nat → List Nat
  | 0, pos => [pos]
  | fuel + 1, pos =>
      (((next pos).filter (fun m => pos < m)).flatMap
        (fun mid => iterStar next fuel mid)) ++ [pos]

/-- All candidate end positions of a match of `r` anchored at `pos` and
bounded by `en`, in backtracking priority order (the head is the match
Python `re` commits to). -/
def Regex.matchEnds : Regex → List Char → Nat → Nat → List Nat
  | .eps, _, pos, _ => [pos]
  | .char c, s, pos, en =>
      match s.get? pos with
      | some c2 => if pos < en ∧ c2 = c then [pos + 1] else []
      | none => []
  | .cls cs, s, pos, en =>
      match s.get? pos with
      | some c2 => if pos < en ∧ c2 ∈ cs then [pos + 1] else []
      | none => []
  | .seq r1 r2, s, pos, en =>
      (r1.matchEnds s pos en).flatMap (fun mid => r2.matchEnds s mid en)
  | .alt r1 r2, s, pos, en =>
      r1.matchEnds s pos en ++ r2.matchEnds s pos en
  | .star r, s, pos, en =>
      iterStar (fun p => r.matchEnds s p en) (en - pos) pos
termination_by r => sizeOf r
decreasing_by all_goals (simp_wf; try omega)

/-- `pattern.match(source, pos, endpos)`: `some k` is a match of `[pos, k)`,
`none` a failed match. The backtracking engine commits to the head of the
priority-ordered candidate list. -/
def Regex.matchAt (r : Regex) (s : List Char) (pos en : Nat) : Option Nat :=
  (r.matchEnds s pos en).head?

/-- `r+` as the source writes it: one occurrence then any number more. -/
def Regex.plus (r : Regex) : Regex := .seq r (.star r)

/-- Token mappers: the default `lambda m,t: (t, m.groups())`, the
`placeholder` mapper `lambda m,t: None`, `m.group(0)` extraction, a tagged
test constant, and mappers that raise (a non-parser exception, or a parser
exception) to exercise `_safecall`. -/
inductive TMapper where
  | default
  | toNone
  | text
  | tagged (n : Nat)
  | raises (msg : String)
  | raisesParser (e : PErr)
deriving DecidableEq, Repr

/-- Sequence mappers: the default `lambda m,t: (t, m)` plus raising test
mappers. -/
inductive SMapper where
  | default
  | raises (msg : String)
  | raisesParser (e : PErr)
deriving DecidableEq, Repr

/-- Switch mappers: the default `lambda o,m,t: o` plus raising test
mappers. -/
inductive WMapper where
  | default
  | raises (msg : String)
  | raisesParser (e : PErr)
deriving DecidableEq, Repr

/-- The three bound structure kinds of the source.  `token` is a bound
`Token` (compiled pattern + mapper), `sequence` a bound `Sequence`
(children `self._seqs`, `self._mapper`, `self._flattern`), `switch` a
bound `Switch` (alternatives `self._switches`, `self._mapper`,
`self._allow_nomatch`). -/
inductive Structure where
  | token (pat : Regex) (mapper : TMapper)
  | sequence (children : List Structure) (mapper : SMapper) (flattern : Bool)
  | switch (alts : List Structure) (mapper : WMapper) (allow_nomatch : Bool)
deriving Repr

mutual

/-- Equality test on structures, used to model Python's `in` membership
test in `Switch.add` (for the distinct concretely-built structures of the
theorems below, structural equality and Python object identity agree). -/
def Structure.beq : Structure → Structure → Bool
  | .token p1 m1, .token p2 m2 => p1 = p2 && m1 = m2
  | .sequence c1 m1 f1, .sequence c2 m2 f2 =>
      Structure.beqList c1 c2 && m1 = m2 && f1 = f2
  | .switch a1 m1 n1, .switch a2 m2 n2 =>
      Structure.beqList a1 a2 && m1 = m2 && n1 = n2
  | _, _ => false

/-- Pointwise equality test on structure lists. -/
def Structure.beqList : List Structure → List Structure → Bool
  | [], [] => true
  | a :: as, b :: bs => Structure.beq a b && Structure.beqList as bs
  | _, _ => false

end

instance : BEq Structure := ⟨Structure.beq⟩

/-- Python values the parser produces: `None`, strings, ints (from test
mappers), tuples, and references to structure objects (the default mappers
put `self` into the result tuple, and `Sequence.flattern` inspects such
references). -/
inductive Value where
  | none
  | str (s : List Char)
  | intV (n : Nat)
  | tup (vs : List Value)
  | structRef (s : Structure)
deriving Repr

/-- Python `obj is not None`, negated: true exactly on the `None` object. -/
def Value.isNone : Value → Bool
  | .none => true
  | _ => false

/-- `_safecall(mapper, ...)` (source lines 57-63): a `ParserException` from
the mapper is re-raised unchanged; any other exception reaches the wrapping
line `raise ParserFatalException(str(exc), source, start)`, whose names
`source` and `start` are unbound in `_safecall`, so a `NameError` is raised
instead of the intended fatal failure. -/
def safecall (r : Except PyExc Value) : Except PyExc Value :=
  match r with
  | .ok v => .ok v
  | .error (.parser e) => .error (.parser e)
  | .error _ => .error (.nameError "source")

/-- Apply a token mapper to a match of `[st, k)` of `s` by token `self`.
The default mapper is `(t, m.groups())`; for the group-free patterns of
this embedding `m.groups()` is the empty tuple. -/
def applyTMapper (m : TMapper) (s : List Char) (st k : Nat) (self : Structure) :
    Except PyExc Value :=
  match m with
  | .default => .ok (.tup [.structRef self, .tup []])
  | .toNone => .ok .none
  | .text => .ok (.str ((s.drop st).take (k - st)))
  | .tagged n => .ok (.intV n)
  | .raises msg => .error (.valueError msg)
  | .raisesParser e => .error (.parser e)

/-- Apply a sequence mapper to the flattened collected tuple. -/
def applySMapper (m : SMapper) (vs : List Value) (self : Structure) :
    Except PyExc Value :=
  match m with
  | .default => .ok (.tup [.structRef self, .tup vs])
  | .raises msg => .error (.valueError msg)
  | .raisesParser e => .error (.parser e)

/-- Apply a switch mapper to the matched value, the matched alternative and
the switch itself. -/
def applyWMapper (m : WMapper) (v : Value) (_matched _self : Structure) :
    Except PyExc Value :=
  match m with
  | .default => .ok v
  | .raises msg => .error (.valueError msg)
  | .raisesParser e => .error (.parser e)

/-- One element of the `Sequence.flattern` pass (source lines 154-161):
`isinstance(v, tuple) and isinstance(v[0], Sequence) and v[0]._flattern`
splices `v[1]` into the result, anything else is appended unchanged.  The
fall-through arms where `v[1]` is absent or not iterable (where Python
would raise) are unreachable for the mapper shapes modelled here: the only
values whose first tuple element is a sequence reference are produced by
`SMapper.default`, whose `v[1]` is always a tuple. -/
def expandValue : Value → List Value
  | .tup (.structRef (.sequence cs m true) :: .tup ws :: _) =>
      let _ := cs; let _ := m; ws
  | v => [v]

/-- `Sequence.flattern` (source lines 154-161). -/
def Sequence.flattern (l : List Value) : List Value :=
  l.flatMap expandValue

mutual

/-- `Structure.parse` dispatch (source lines 88-92 for `Token`, 126-133 for
`Sequence`, 189-202 for `Switch`), returning `(parsed, next_start)` or the
raised exception.

`Token.parse`: match the pattern at `start` bounded by `end`; on failure
raise `ParserNotMatchException` at `start`; on success return
`(_safecall(self._mapper, m, self), m.end())`.

`Sequence.parse`: run the child loop (source lines 127-132, see
`runChildren`: each child is called as `structure.parse(source, start,
end)` — with the sequence's own `start`, not the running `next_pos`), then
return `(_safecall(self._mapper, self.flattern(return_obj), self),
next_pos)`.

`Switch.parse`: run the alternative loop (see `tryAlts`); if it completes
without a match, return `(None, start)` when `allow_nomatch` else raise
`ParserNotMatchException` at `start` (source line 201; its malformed
message expression is not modelled); otherwise return
`(_safecall(self._mapper, obj, s, self), next_start)`. -/
def parse : Structure → List Char → Nat → Nat → Except PyExc (Value × Nat)
  | .token pat m, s, st, en =>
      match Regex.matchAt pat s st en with
      | none => .error (.parser (.notMatch st))
      | some k =>
          match safecall (applyTMapper m s st k (.token pat m)) with
          | .error e => .error e
          | .ok v => .ok (v, k)
  | .sequence cs m f, s, st, en =>
      match runChildren cs s st en [] st with
      | .error e => .error e
      | .ok (vs, np) =>
          match safecall (applySMapper m (Sequence.flattern vs) (.sequence cs m f)) with
          | .error e => .error e
          | .ok v => .ok (v, np)
  | .switch alts m anm, s, st, en =>
      match tryAlts alts s st en with
      | .error e => .error e
      | .ok Option.none =>
          if anm then .ok (.none, st) else .error (.parser (.notMatch st))
      | .ok (some (v, p, a)) =>
          match safecall (applyWMapper m v a (.switch alts m anm)) with
          | .error e => .error e
          | .ok v2 => .ok (v2, p)
termination_by s _ _ _ => 2 * sizeOf s
decreasing_by all_goals (simp_wf; try omega)

/-- The child loop of `Sequence.parse` (source lines 127-132), carrying the
growing `return_obj` and the running `next_pos`.  Each iteration executes
`obj, next_pos = structure.parse(source, start, end)` — the call site
passes the loop-invariant `start`, so every child is attempted at the
sequence's own start position — and appends `obj` when `obj is not
None`. -/
def runChildren : List Structure → List Char → Nat → Nat → List Value → Nat →
    Except PyExc (List Value × Nat)
  | [], _, _, _, acc, np => .ok (acc, np)
  | c :: rest, s, st, en, acc, _ =>
      match parse c s st en with
      | .error e => .error e
      | .ok (v, p) =>
          runChildren rest s st en (acc ++ if v.isNone then [] else [v]) p
termination_by cs _ _ _ _ _ => 2 * sizeOf cs
decreasing_by all_goals (simp_wf; try omega)

/-- The alternative loop of `Switch.parse` (source lines 190-196):
`except ParserNotMatchException: pass` continues with the next alternative;
any other exception propagates; the first alternative that returns breaks
the loop with its value, end position and the matched structure. -/
def tryAlts : List Structure → List Char → Nat → Nat →
    Except PyExc (Option (Value × Nat × Structure))
  | [], _, _, _ => .ok Option.none
  | a :: rest, s, st, en =>
      match parse a s st en with
      | .ok (v, p) => .ok (some (v, p, a))
      | .error (.parser (.notMatch _)) => tryAlts rest s st en
      | .error e => .error e
termination_by as _ _ _ => 2 * sizeOf as
decreasing_by all_goals (simp_wf; try omega)

/-- `Structure.fullparse` dispatch.

`Token` inherits the base `Structure.fullparse` (source lines 45-54):
`parse`, then `raise ParserFatalException("extra unparsed data", source,
end)` when `next_start != end`.

`Sequence.fullparse` (source lines 135-145) begins with
`for structure in self._seqs[-1]:` — iterating over the *last child
itself*, a `Structure`, which defines no `__iter__`, so every call on a
bound (non-empty) sequence raises `TypeError` before any parsing happens
(on an empty child tuple, `self._seqs[-1]` raises `IndexError` first); the
rest of the method body is unreachable.

`Switch.fullparse` (source lines 204-219): run the alternative loop with
`fullparse` (see `tryAltsFull`); on exhaustion, when `allow_nomatch`,
return `(None, start)` if `start == end` else raise
`ParserNotMatchException` (source line 217 — the written exception class is
the recoverable one); when not `allow_nomatch`, raise
`ParserNotMatchException` (line 218); otherwise apply the mapper as in
`parse`. -/
def fullparse : Structure → List Char → Nat → Nat → Except PyExc (Value × Nat)
  | .token pat m, s, st, en =>
      match parse (.token pat m) s st en with
      | .error e => .error e
      | .ok (v, p) =>
          if p ≠ en then .error (.parser (.fatal en)) else .ok (v, p)
  | .sequence cs _ _, _, _, _ =>
      match cs.getLast? with
      | Option.none => .error (.indexError "tuple index out of range")
      | some _ => .error (.typeError "Structure object is not iterable")
  | .switch alts m anm, s, st, en =>
      match tryAltsFull alts s st en with
      | .error e => .error e
      | .ok Option.none =>
          if anm then
            if st = en then .ok (.none, st)
            else .error (.parser (.notMatch st))
          else .error (.parser (.notMatch st))
      | .ok (some (v, p, a)) =>
          match safecall (applyWMapper m v a (.switch alts m anm)) with
          | .error e => .error e
          | .ok v2 => .ok (v2, p)
termination_by s _ _ _ => 2 * sizeOf s + 1
decreasing_by all_goals (simp_wf; try omega)

/-- The alternative loop of `Switch.fullparse` (source lines 205-211),
identical to `tryAlts` except that each alternative is tried with its own
`fullparse`. -/
def tryAltsFull : List Structure → List Char → Nat → Nat →
    Except PyExc (Option (Value × Nat × Structure))
  | [], _, _, _ => .ok Option.none
  | a :: rest, s, st, en =>
      match fullparse a s st en with
      | .ok (v, p) => .ok (some (v, p, a))
      | .error (.parser (.notMatch _)) => tryAltsFull rest s st en
      | .error e => .error e
termination_by as _ _ _ => 2 * sizeOf as + 1
decreasing_by all_goals (simp_wf; try omega)

end

/-- `placeholder(pattern)` (source lines 95-96): a token whose mapper
returns `None`. -/
def placeholder (pat : Regex) : Structure := .token pat .toNone

/-- `optional_space = placeholder(r"[ \t]*")` (source line 100). -/
def optional_space : Structure :=
  placeholder (.star (.cls [' ', '\t']))

/-- `space = placeholder(r"[ \t]+")` (source line 99). -/
def space : Structure :=
  placeholder (Regex.plus (.cls [' ', '\t']))

/-- `Switch.add` (source lines 182-184).  `bind` stored the alternatives as
`self._switches = args`, the `*args` *tuple*; the membership test
`structure not in self._switches` runs first, so adding an already-present
structure is a silent no-op, while adding a new one reaches
`self._switches.append(structure)` and raises `AttributeError` (tuples
have no `append`). -/
def Switch.add (alts : List Structure) (x : Structure) :
    Except PyExc (List Structure) :=
  if alts.contains x then .ok alts
  else .error (.attributeError "tuple object has no attribute append")

/-- `Switch.remove` (source lines 186-187): `self._switches.remove(...)` on
the alternatives tuple always raises `AttributeError` (tuples have no
`remove`). -/
def Switch.remove (alts : List Structure) (x : Structure) :
    Except PyExc (List Structure) :=
  let _ := x
  let _ := alts
  .error (.attributeError "tuple object has no attribute remove")

/-- Concrete matcher: pattern `a`, mapper returning the tag 1. -/
def tokA : Structure := .token (.char 'a') (.tagged 1)

/-- Concrete matcher: pattern `b`, mapper returning the tag 2. -/
def tokB : Structure := .token (.char 'b') (.tagged 2)

/-- Concrete matcher with an overlapping pattern `[ab]`, tag 9. -/
def tokAB : Structure := .token (.cls ['a', 'b']) (.tagged 9)

/-- Concrete sequence of the two single-character matchers `a` then `b`. -/
def seqAB : Structure := .sequence [tokA, tokB] .default false

/-- Concrete matcher: pattern `a`, tag 2. -/
def tokA2 : Structure := .token (.char 'a') (.tagged 2)

/-- Concrete matcher: pattern `a`, tag 3. -/
def tokA3 : Structure := .token (.char 'a') (.tagged 3)

/-- `S1`: a flatten-tagged sequence of two matchers with the default
combiner. -/
def seqS1 : Structure := .sequence [tokA, tokA2] .default true

/-- `S2`: a sequence embedding the flatten-tagged `S1` before a third
matcher. -/
def seqS2 : Structure := .sequence [seqS1, tokA3] .default false

theorem iterStar_mem_bounds (next : Nat → List Nat) (en : Nat)
    (h : ∀ p k, k ∈ next p → p ≤ k ∧ (p ≤ en → k ≤ en)) :
    ∀ fuel pos k, k ∈ iterStar next fuel pos → pos ≤ k ∧ (pos ≤ en → k ≤ en) := by
  intro fuel
  induction fuel with
  | zero =>
      intro pos k hk
      simp [iterStar] at hk
      subst hk
      exact ⟨le_refl _, fun hp => hp⟩
  | succ n ih =>
      intro pos k hk
      simp [iterStar] at hk
      rcases hk with ⟨mid, ⟨hmem, hlt⟩, hk2⟩ | rfl
      · have h1 := h pos mid hmem
        have h2 := ih mid k hk2
        exact ⟨le_trans h1.1 h2.1, fun hp => h2.2 (h1.2 hp)⟩
      · exact ⟨le_refl _, fun hp => hp⟩

theorem matchEnds_mem_bounds (r : Regex) :
    ∀ (s : List Char) (pos en k : Nat), k ∈ r.matchEnds s pos en →
      pos ≤ k ∧ (pos ≤ en → k ≤ en) := by
  induction r with
  | eps =>
      intro s pos en k hk
      simp [Regex.matchEnds] at hk
      subst hk
      exact ⟨le_refl _, fun hp => hp⟩
  | char c =>
      intro s pos en k hk
      simp [Regex.matchEnds] at hk
      rcases hget : s[pos]? with _ | c2 <;> rw [hget] at hk <;> simp at hk
      rcases hk with ⟨⟨hlt, _⟩, hk⟩
      subst hk
      exact ⟨Nat.le_succ _, fun _ => hlt⟩
  | cls cs =>
      intro s pos en k hk
      simp [Regex.matchEnds] at hk
      rcases hget : s[pos]? with _ | c2 <;> rw [hget] at hk <;> simp at hk
      rcases hk with ⟨⟨hlt, _⟩, hk⟩
      subst hk
      exact ⟨Nat.le_succ _, fun _ => hlt⟩
  | seq r1 r2 ih1 ih2 =>
      intro s pos en k hk
      simp [Regex.matchEnds] at hk
      rcases hk with ⟨mid, hmid, hk2⟩
      have h1 := ih1 s pos en mid hmid
      have h2 := ih2 s mid en k hk2
      exact ⟨le_trans h1.1 h2.1, fun hp => h2.2 (h1.2 hp)⟩
  | alt r1 r2 ih1 ih2 =>
      intro s pos en k hk
      simp [Regex.matchEnds] at hk
      rcases hk with hk | hk
      · exact ih1 s pos en k hk
      · exact ih2 s pos en k hk
  | star r ih =>
      intro s pos en k hk
      rw [Regex.matchEnds] at hk
      exact iterStar_mem_bounds _ en (fun p k2 h2 => ih s p en k2 h2) _ pos k hk

theorem matchAt_bounds (r : Regex) (s : List Char) (pos en k : Nat)
    (h : r.matchAt s pos en = some k) : pos ≤ k ∧ (pos ≤ en → k ≤ en) := by
  have hmem : k ∈ r.matchEnds s pos en := by
    unfold Regex.matchAt at h
    cases hl : r.matchEnds s pos en with
    | nil => rw [hl] at h; simp at h
    | cons a l => rw [hl] at h; simp at h; subst h; simp
  exact matchEnds_mem_bounds r s pos en k hmem

theorem iterStar_ne_nil (next : Nat → List Nat) (fuel pos : Nat) :
    iterStar next fuel pos ≠ [] := by
  cases fuel <;> simp [iterStar]

theorem star_matchAt_isSome (r : Regex) (s : List Char) (pos en : Nat) :
    ∃ k, (Regex.star r).matchAt s pos en = some k := by
  unfold Regex.matchAt
  rw [Regex.matchEnds]
  cases hl : iterStar (fun p => r.matchEnds s p en) (en - pos) pos with
  | nil => exact absurd hl (iterStar_ne_nil _ _ _)
  | cons a l => exact ⟨a, rfl⟩

/-- Claim C1 (code bug witness): `Sequence.parse` does not thread the
cursor.  Source line 130 passes the loop-invariant `start` — not the
running `next_pos` — to every child, so for the sequence of
single-character matchers `[A, B]` on input `"ab"` over `[0, 2)`, `B` is
attempted at position 0 (where it raises the recoverable no-match failure
that aborts the whole parse) even though `A` succeeded consuming `[0, 1)`
and `B` succeeds when started at 1, the end position `A` returned. -/
theorem seq_parse_not_threaded :
    parse seqAB ['a', 'b'] 0 2 = .error (.parser (.notMatch 0)) ∧
    parse tokA ['a', 'b'] 0 2 = .ok (.intV 1, 1) ∧
    parse tokB ['a', 'b'] 1 2 = .ok (.intV 2, 2) := by
  refine ⟨?_, ?_, ?_⟩ <;>
    simp [parse, runChildren, Regex.matchAt, Regex.matchEnds, safecall,
      applyTMapper, applySMapper, Sequence.flattern, expandValue, Value.isNone,
      seqAB, tokA, tokB]

/-- Claim C2 (code bug witness): `Sequence.fullparse` never reaches its
parsing logic.  Source line 138 iterates `for structure in self._seqs[-1]`
— over the last child itself, a `Structure` with no `__iter__` — so the
call raises `TypeError` on any bound sequence instead of parsing the
preceding children with `parse` and the last child with `fullparse`. -/
theorem seq_fullparse_not_iterable :
    fullparse seqAB ['a', 'b'] 0 2 =
      .error (.typeError "Structure object is not iterable") := by
  simp [fullparse, seqAB]

/-- Claim C3 (code bug witness): when a token mapper raises an exception
that is not a recognized parse failure, `_safecall`'s wrapping line
`raise ParserFatalException(str(exc), source, start)` references the names
`source` and `start`, which are unbound in `_safecall`'s scope, so a
`NameError` escapes instead of the claimed well-formed fatal failure.  A
mapper raising a recognized `ParserException` is re-raised unchanged. -/
theorem safecall_nameerror :
    parse (.token (.char 'a') (.raises "boom")) ['a'] 0 1 =
      .error (.nameError "source") ∧
    parse (.token (.char 'a') (.raisesParser (.fatal 7))) ['a'] 0 1 =
      .error (.parser (.fatal 7)) := by
  constructor <;>
    simp [parse, Regex.matchAt, Regex.matchEnds, safecall, applyTMapper]

/-- If every structure in `pre` fails with the recoverable no-match kind,
the `Switch.parse` alternative loop skips past `pre` unchanged. -/
theorem tryAlts_append_notMatch (pre rest : List Structure) (s : List Char)
    (st en : Nat)
    (hpre : ∀ b ∈ pre, ∃ q, parse b s st en = .error (.parser (.notMatch q))) :
    tryAlts (pre ++ rest) s st en = tryAlts rest s st en := by
  induction pre with
  | nil => simp
  | cons a pre ih =>
      obtain ⟨q, hq⟩ := hpre a (by simp)
      rw [List.cons_append, tryAlts, hq]
      exact ih (fun b hb => hpre b (by simp [hb]))

/-- Claim C4: `Switch.parse` tries alternatives strictly in binding order,
catching only the recoverable no-match kind.  With any prefix `pre` of
alternatives that all fail recoverably: if the next alternative `a`
succeeds, the switch returns its mapped value and end position (the
remaining alternatives `post` are arbitrary and never consulted); if `a`
raises any failure that is not a recoverable no-match, that failure
propagates unchanged as the switch's result. -/
theorem switch_parse_first_match (pre post : List Structure) (a : Structure)
    (m : WMapper) (anm : Bool) (s : List Char) (st en : Nat)
    (hpre : ∀ b ∈ pre, ∃ q, parse b s st en = .error (.parser (.notMatch q))) :
    (∀ v p v2, parse a s st en = .ok (v, p) →
        safecall (applyWMapper m v a (.switch (pre ++ a :: post) m anm)) = .ok v2 →
        parse (.switch (pre ++ a :: post) m anm) s st en = .ok (v2, p)) ∧
    (∀ e, parse a s st en = .error e →
        (∀ q, e ≠ .parser (.notMatch q)) →
        parse (.switch (pre ++ a :: post) m anm) s st en = .error e) := by
  have hskip := tryAlts_append_notMatch pre (a :: post) s st en hpre
  constructor
  · intro v p v2 hok hmap
    rw [parse, hskip, tryAlts, hok]
    simp only [hmap]
  · intro e herr hne
    have hta : tryAlts (a :: post) s st en = .error e := by
      rw [tryAlts, herr]
      rcases e with e' | n | mm | aa | ii | vv
      · rcases e' with p1 | p2
        · exact absurd rfl (hne p1)
        · rfl
      all_goals rfl
    rw [parse, hskip, hta]

/-- Claim C4 witness: on input `"a"`, a switch `[b-matcher, a-matcher,
[ab]-matcher]` skips the non-matching first alternative and commits to the
second, whose tag 1 is returned, even though the third alternative's
overlapping pattern also matches. -/
theorem switch_parse_first_match_witness :
    parse (.switch [tokB, tokA, tokAB] .default false) ['a'] 0 1 =
      .ok (.intV 1, 1) := by
  have h := switch_parse_first_match [tokB] [tokAB] tokA .default false
    ['a'] 0 1
    (by
      intro b hb
      simp only [List.mem_singleton] at hb
      subst hb
      exact ⟨0, by simp [tokB, parse, Regex.matchAt, Regex.matchEnds]⟩)
  exact h.1 (.intV 1) 1 (.intV 1)
    (by simp [tokA, parse, Regex.matchAt, Regex.matchEnds, safecall,
      applyTMapper])
    (by simp [safecall, applyWMapper])

/-- Claim C5: `Token.parse` over span `[start, end)` with `end >= start`:
when the engine's anchored match at `start` yields end position `k`, parse
returns the mapper's value paired with `k`, and `[start, k)` is a prefix
of the span (`start ≤ k ≤ end`); when the pattern does not match at
`start`, parse raises the recoverable no-match failure at `start`. -/
theorem token_parse_spec (pat : Regex) (tm : TMapper) (s : List Char)
    (st en : Nat) (hse : st ≤ en) :
    (∀ k v, pat.matchAt s st en = some k →
        applyTMapper tm s st k (.token pat tm) = .ok v →
        parse (.token pat tm) s st en = .ok (v, k) ∧ st ≤ k ∧ k ≤ en) ∧
    (pat.matchAt s st en = none →
        parse (.token pat tm) s st en = .error (.parser (.notMatch st))) := by
  constructor
  · intro k v hm hmap
    have hb := matchAt_bounds pat s st en k hm
    refine ⟨?_, hb.1, hb.2 hse⟩
    simp only [parse, hm, hmap, safecall]
  · intro hm
    simp only [parse, hm]

/-- Claim C5 witness: on `"ab"` over `[0, 2)`, the `a`-matcher returns its
mapped tag with end position 1, and the `b`-matcher raises the recoverable
no-match failure at 0. -/
theorem token_parse_spec_witness :
    (parse tokA ['a', 'b'] 0 2 = .ok (.intV 1, 1) ∧ 0 ≤ 1 ∧ 1 ≤ 2) ∧
    parse tokB ['a', 'b'] 0 2 = .error (.parser (.notMatch 0)) := by
  constructor
  · exact (token_parse_spec (.char 'a') (.tagged 1) ['a', 'b'] 0 2 (by omega)).1
      1 (.intV 1) (by simp [Regex.matchAt, Regex.matchEnds])
      (by simp [applyTMapper])
  · exact (token_parse_spec (.char 'b') (.tagged 2) ['a', 'b'] 0 2 (by omega)).2
      (by simp [Regex.matchAt, Regex.matchEnds])

/-- If every alternative's `fullparse` fails with the recoverable no-match
kind, the `Switch.fullparse` alternative loop exhausts without a match. -/
theorem tryAltsFull_all_notMatch (alts : List Structure) (s : List Char)
    (st en : Nat)
    (h : ∀ a ∈ alts, ∃ q, fullparse a s st en = .error (.parser (.notMatch q))) :
    tryAltsFull alts s st en = .ok Option.none := by
  induction alts with
  | nil => rw [tryAltsFull]
  | cons a rest ih =>
      obtain ⟨q, hq⟩ := h a (by simp)
      rw [tryAltsFull, hq]
      exact ih (fun b hb => h b (by simp [hb]))

/-- Claim C6, counterexample to the "fatal" part as stated: a switch with
`allow_nomatch` set and a single non-matching alternative, over the
non-empty remaining input `"b"` with `start = 0 ≠ 1 = end`, fails from
`fullparse` with the *recoverable* no-match kind (`ParserNotMatchException`,
source line 217), not with a fatal failure. -/
theorem switch_fullparse_leftover_cex :
    fullparse (.switch [placeholder (.char 'a')] .default true) ['b'] 0 1 =
      .error (.parser (.notMatch 0)) := by
  simp [fullparse, tryAltsFull, placeholder, parse, Regex.matchAt,
    Regex.matchEnds, safecall, applyTMapper]

/-- Claim C6 as amended: for a `Switch` with `allow_nomatch` set on which
every alternative's `fullparse` fails recoverably, `fullparse` returns the
no-value marker with the position unchanged exactly when `start = end`;
when `start ≠ end` it raises a *recoverable* no-match failure at `start`
(the written exception class of source line 217), not a fatal failure. -/
theorem switch_fullparse_allow_nomatch (alts : List Structure) (m : WMapper)
    (s : List Char) (st en : Nat)
    (h : ∀ a ∈ alts, ∃ q, fullparse a s st en = .error (.parser (.notMatch q))) :
    (st = en → fullparse (.switch alts m true) s st en = .ok (Value.none, st)) ∧
    (st ≠ en →
        fullparse (.switch alts m true) s st en =
          .error (.parser (.notMatch st))) := by
  have hta := tryAltsFull_all_notMatch alts s st en h
  constructor
  · intro hse
    rw [fullparse, hta]
    simp [hse]
  · intro hne
    rw [fullparse, hta]
    simp [hne]

/-- Claim C6 witness: the same switch on empty remaining input
(`start = end = 0`) returns the no-value marker with the position
unchanged. -/
theorem switch_fullparse_allow_nomatch_witness :
    fullparse (.switch [placeholder (.char 'a')] .default true) [] 0 0 =
      .ok (Value.none, 0) := by
  refine (switch_fullparse_allow_nomatch [placeholder (.char 'a')] .default
    [] 0 0 ?_).1 rfl
  intro a ha
  simp only [List.mem_singleton] at ha
  subst ha
  exact ⟨0, by simp [placeholder, fullparse, parse, Regex.matchAt,
    Regex.matchEnds]⟩

/-- Claim C7: the flatten law.  (1) A value of the shape the default
combiner gives a flatten-tagged child sequence — a tuple whose first
element is that sequence and whose second is its collected tuple — is
spliced element-by-element into the enclosing collected tuple by
`Sequence.flattern`.  (2) A child sequence result whose flatten flag is
false passes through as one nested item.  (3) End to end, for
`S1 = Seq(a, b, flatten=true)` embedded in `S2 = Seq(S1, c)` (default
combiners), `S2.parse` produces the collected tuple `(a_val, b_val,
c_val)`, not `((a_val, b_val), c_val)`. -/
theorem seq_flatten_law :
    (∀ (l1 l2 : List Value) (cs : List Structure) (m : SMapper)
        (ws rest : List Value),
        Sequence.flattern
            (l1 ++ (.tup (.structRef (.sequence cs m true) :: .tup ws :: rest)) :: l2) =
          Sequence.flattern l1 ++ ws ++ Sequence.flattern l2) ∧
    (∀ (l1 l2 : List Value) (cs : List Structure) (m : SMapper)
        (vs : List Value),
        Sequence.flattern
            (l1 ++ (.tup (.structRef (.sequence cs m false) :: vs)) :: l2) =
          Sequence.flattern l1 ++
            (.tup (.structRef (.sequence cs m false) :: vs)) :: Sequence.flattern l2) ∧
    parse seqS2 ['a'] 0 1 =
      .ok (.tup [.structRef seqS2, .tup [.intV 1, .intV 2, .intV 3]], 1) := by
  refine ⟨?_, ?_, ?_⟩
  · intro l1 l2 cs m ws rest
    simp [Sequence.flattern, expandValue]
  · intro l1 l2 cs m vs
    simp [Sequence.flattern, expandValue]
  · simp [seqS2, seqS1, tokA, tokA2, tokA3, parse, runChildren, Regex.matchAt,
      Regex.matchEnds, safecall, applyTMapper, applySMapper,
      Sequence.flattern, expandValue, Value.isNone]

/-- The `Sequence.parse` child loop collects, in order, exactly the
non-`None` values of its children (each child parsed at the sequence's
start, as the code does), appended to the incoming accumulator. -/
theorem runChildren_collects (s : List Char) (st en : Nat) :
    ∀ (cs : List Structure) (acc : List Value) (p0 : Nat),
      (∀ c ∈ cs, ∃ v p, parse c s st en = .ok (v, p)) →
      ∃ np, runChildren cs s st en acc p0 =
        .ok (acc ++ cs.filterMap (fun c =>
          match parse c s st en with
          | .ok (v, _) => if v.isNone then Option.none else some v
          | .error _ => Option.none), np) := by
  intro cs
  induction cs with
  | nil =>
      intro acc p0 _
      refine ⟨p0, ?_⟩
      rw [runChildren]
      simp
  | cons c rest ih =>
      intro acc p0 h
      obtain ⟨v, p, hv⟩ := h c (by simp)
      obtain ⟨np, hnp⟩ := ih (acc ++ if v.isNone then [] else [v]) p
        (fun b hb => h b (by simp [hb]))
      refine ⟨np, ?_⟩
      rw [runChildren, hv]
      simp only [hnp, List.filterMap_cons, hv]
      cases hn : v.isNone <;> simp [hn]

/-- Claim C8: on a successful `Sequence.parse`, a child whose value is the
no-value marker (`None`) contributes zero elements to the collected tuple
and every other child contributes exactly one, in order (before
flattening); the combiner is then applied to the flattened collected tuple
and the final cursor is the loop's last `next_pos`. -/
theorem seq_parse_none_filtered (cs : List Structure) (m : SMapper) (f : Bool)
    (s : List Char) (st en : Nat)
    (h : ∀ c ∈ cs, ∃ v p, parse c s st en = .ok (v, p)) :
    ∃ np,
      runChildren cs s st en [] st =
        .ok (cs.filterMap (fun c =>
          match parse c s st en with
          | .ok (v, _) => if v.isNone then Option.none else some v
          | .error _ => Option.none), np) ∧
      ∀ v, safecall (applySMapper m
          (Sequence.flattern (cs.filterMap (fun c =>
            match parse c s st en with
            | .ok (v, _) => if v.isNone then Option.none else some v
            | .error _ => Option.none)))
          (.sequence cs m f)) = .ok v →
        parse (.sequence cs m f) s st en = .ok (v, np) := by
  obtain ⟨np, hnp⟩ := runChildren_collects s st en cs [] st h
  simp only [List.nil_append] at hnp
  refine ⟨np, hnp, ?_⟩
  intro v hv
  rw [parse]
  simp only [hnp, hv]

/-- Claim C8 witness: in the sequence `[a-matcher, optional_space,
[ab]-matcher]` on `"a"`, the placeholder's `None` value is dropped and the
collected tuple is exactly the other two children's tags. -/
theorem seq_parse_none_filtered_witness :
    ∃ np, runChildren [tokA, optional_space, tokAB] ['a'] 0 1 [] 0 =
      .ok ([.intV 1, .intV 9], np) := by
  obtain ⟨np, h1, _⟩ := seq_parse_none_filtered
    [tokA, optional_space, tokAB] .default false ['a'] 0 1
    (by
      intro c hc
      simp only [List.mem_cons, List.mem_singleton, List.not_mem_nil,
        or_false] at hc
      rcases hc with rfl | rfl | rfl
      · exact ⟨.intV 1, 1, by simp [tokA, parse, Regex.matchAt,
          Regex.matchEnds, safecall, applyTMapper]⟩
      · exact ⟨.none, 0, by simp [optional_space, placeholder, parse,
          Regex.matchAt, Regex.matchEnds, iterStar, safecall, applyTMapper]⟩
      · exact ⟨.intV 9, 1, by simp [tokAB, parse, Regex.matchAt,
          Regex.matchEnds, safecall, applyTMapper]⟩)
  refine ⟨np, ?_⟩
  rw [h1]
  congr 1
  simp [tokA, tokAB, optional_space, placeholder, parse, Regex.matchAt,
    Regex.matchEnds, iterStar, safecall, applyTMapper, Value.isNone]

/-- Claim C9 (code bug witness): the alternatives are stored by `bind` as
the `*args` tuple, so `Switch.add` with a structure that is not already
present reaches `self._switches.append(...)` and raises `AttributeError`
(the membership test makes adding a present structure a silent no-op), and
`Switch.remove` always raises `AttributeError` — neither mutates the
alternative list as claimed. -/
theorem switch_add_remove_attributeerror :
    Switch.add [tokA] tokB =
      .error (.attributeError "tuple object has no attribute append") ∧
    Switch.remove [tokA] tokA =
      .error (.attributeError "tuple object has no attribute remove") ∧
    Switch.add [tokA] tokA = .ok [tokA] := by
  refine ⟨?_, ?_, ?_⟩ <;>
    simp [Switch.add, Switch.remove, List.contains, tokA, tokB,
      Structure.beq, Structure.beqList, instBEqStructure]

/-- Claim C10: a token whose pattern yields a zero-width match at `start`
succeeds returning `start` itself, so a successful matcher parse does not
guarantee cursor advancement; in particular `optional_space` succeeds on
every input (its star pattern always matches), and on input `"ab"` (no
leading whitespace) it consumes nothing. -/
theorem token_zero_width :
    (∀ (pat : Regex) (tm : TMapper) (s : List Char) (st en : Nat) (v : Value),
        pat.matchAt s st en = some st →
        applyTMapper tm s st st (.token pat tm) = .ok v →
        parse (.token pat tm) s st en = .ok (v, st)) ∧
    (∀ (s : List Char) (st en : Nat),
        ∃ k, parse optional_space s st en = .ok (Value.none, k)) ∧
    parse optional_space ['a', 'b'] 0 2 = .ok (Value.none, 0) := by
  refine ⟨?_, ?_, ?_⟩
  · intro pat tm s st en v hm hmap
    simp only [parse, hm, hmap, safecall]
  · intro s st en
    obtain ⟨k, hk⟩ := star_matchAt_isSome (.cls [' ', '\t']) s st en
    refine ⟨k, ?_⟩
    simp only [optional_space, placeholder, parse, hk, applyTMapper, safecall]
  · simp [optional_space, placeholder, parse, Regex.matchAt, Regex.matchEnds,
      iterStar, safecall, applyTMapper]

/-- Claim C10 witness: `optional_space` on `"b"` succeeds with a zero-width
match, returning the unchanged position 0. -/
theorem token_zero_width_witness :
    parse optional_space ['b'] 0 1 = .ok (Value.none, 0) :=
  token_zero_width.1 (.star (.cls [' ', '\t'])) .toNone ['b'] 0 1 Value.none
    (by simp [Regex.matchAt, Regex.matchEnds, iterStar])
    (by simp [applyTMapper])
